import Mathlib

/-!
Verification development for the EMP-BE employee-management backend.

The definitions below are a shallow embedding of the JavaScript source:
timestamps are epoch milliseconds (as integers), money and hour values are
exact rationals, database collections are lists, and each Express route
handler becomes a pure function from the store and its inputs to a result
and an updated store.  File and line references point into the repository
sources the definitions were translated from.
-/

namespace EMP

/-- Milliseconds in one hour (JS literal 1000 * 60 * 60). -/
def msPerHour : ℤ := 1000 * 60 * 60

/-- Milliseconds in one minute (JS literal 1000 * 60). -/
def msPerMinute : ℤ := 1000 * 60

/-- Milliseconds in one calendar day. -/
def msPerDay : ℤ := 1000 * 60 * 60 * 24

/-- Truncation of a timestamp to the start of its calendar day; this models
the JS idiom setHours(0,0,0,0) used at routes/attendance.js:96-97 and 174-175
(time-zone offset elided: days are measured from the epoch). -/
def dayStart (t : ℤ) : ℤ := msPerDay * (t.fdiv msPerDay)

/-- Rounding to two decimals, the model of Number(x.toFixed(2)): nearest
hundredth, ties toward positive infinity. -/
def round2 (q : ℚ) : ℚ := (((q * 100 + 1/2).floor : ℤ) : ℚ) / 100

/-- Attendance status enumeration (models/Attendance.js:36-40). -/
inductive AttStatus where
  | present
  | absent
  | leave
  | holiday
deriving DecidableEq, Repr

/-- One attendance document (models/Attendance.js:3-44).  The date field is
day-granular (a dayStart value); checkOut is absent until check-out;
lateMinutes defaults to 0, workingHours to 0, overtime to 0. -/
structure AttendanceRec where
  employeeId : ℕ
  date : ℤ
  checkIn : ℤ
  standardCheckIn : ℤ
  checkOut : Option ℤ
  lateMinutes : ℤ
  workingHours : ℚ
  overtime : ℚ
  status : AttStatus
deriving DecidableEq, Repr

/-- Overtime request status enumeration. -/
inductive OTStatus where
  | pending
  | approved
  | rejected
deriving DecidableEq, Repr

/-- One overtime request document (fields used by the routes: employeeId,
date, requestedHours, status). -/
structure OvertimeRequest where
  employeeId : ℕ
  date : ℤ
  requestedHours : ℚ
  status : OTStatus
deriving DecidableEq, Repr

/-- Attendance.findOne({employeeId, date}) (routes/attendance.js:100-103
and 177-180). -/
def findAttendance (store : List AttendanceRec) (empId : ℕ) (date : ℤ) :
    Option AttendanceRec :=
  store.find? (fun a => a.employeeId == empId && a.date == date)

/-- OvertimeRequest.findOne({employeeId, date, status: approved})
(routes/attendance.js:191-195). -/
def findApprovedOT (store : List OvertimeRequest) (empId : ℕ) (date : ℤ) :
    Option OvertimeRequest :=
  store.find? (fun r =>
    r.employeeId == empId && r.date == date && r.status == OTStatus.approved)

/-- The attendance document built by the check-in handler
(routes/attendance.js:109-127): date is today (start of day), standard
check-in is 08:00 of today, lateMinutes is the floored minute difference when
the employee is late, status is present, workingHours 0, overtime left at its
schema default 0. -/
def mkAttendance (empId : ℕ) (now : ℤ) : AttendanceRec :=
  let today := dayStart now
  let standardCheckIn := today + 8 * msPerHour
  { employeeId := empId
    date := today
    checkIn := now
    standardCheckIn := standardCheckIn
    checkOut := none
    lateMinutes :=
      if now > standardCheckIn then (now - standardCheckIn).fdiv msPerMinute else 0
    workingHours := 0
    overtime := 0
    status := AttStatus.present }

/-- The mutation the check-out handler applies to the found attendance
document (routes/attendance.js:197-208): sets checkOut to now, stores the
elapsed hours rounded to two decimals, and, when an approved overtime request
exists and the raw elapsed hours exceed the 8 standard hours, sets overtime to
the excess clamped by the approved requestedHours; otherwise overtime is left
untouched. -/
def applyCheckOut (a : AttendanceRec) (otReq : Option OvertimeRequest)
    (now : ℤ) : AttendanceRec :=
  let workingHours : ℚ := ((now - a.checkIn : ℤ) : ℚ) / ((1000 * 60 * 60 : ℤ) : ℚ)
  let standardHours : ℚ := 8
  let overtime :=
    match otReq with
    | some r =>
        if workingHours > standardHours then
          min (workingHours - standardHours) r.requestedHours
        else a.overtime
    | none => a.overtime
  { a with
      checkOut := some now
      workingHours := round2 workingHours
      overtime := overtime }

/-- Raw elapsed working hours used by the check-out handler before rounding
(routes/attendance.js:200). -/
def rawWorkingHours (a : AttendanceRec) (now : ℤ) : ℚ :=
  ((now - a.checkIn : ℤ) : ℚ) / ((1000 * 60 * 60 : ℤ) : ℚ)

/-- Errors returned by the check-out route. -/
inductive CheckOutError where
  | noCheckInFound
  | alreadyCheckedOut
deriving DecidableEq, Repr

/-- Saving the mutated attendance document: every document matching the
(employeeId, date) key is replaced (the key is unique, so at most one is). -/
def saveAttendance (store : List AttendanceRec) (empId : ℕ) (date : ℤ)
    (a : AttendanceRec) : List AttendanceRec :=
  store.map (fun b => if b.employeeId == empId && b.date == date then a else b)

/-- The POST /check-out handler (routes/attendance.js:171-222): find the
attendance document for (employee, today); fail when none exists or when
checkOut is already set, leaving the store untouched; otherwise look up an
approved overtime request for the day, apply the check-out mutation and save.
Returns the error (if any) together with the resulting store. -/
def checkOutRoute (attStore : List AttendanceRec)
    (otStore : List OvertimeRequest) (empId : ℕ) (now : ℤ) :
    Option CheckOutError × List AttendanceRec :=
  let today := dayStart now
  match findAttendance attStore empId today with
  | none => (some CheckOutError.noCheckInFound, attStore)
  | some a =>
      if a.checkOut.isSome then (some CheckOutError.alreadyCheckedOut, attStore)
      else
        let otReq := findApprovedOT otStore empId today
        let a2 := applyCheckOut a otReq now
        (none, saveAttendance attStore empId today a2)

/-- Errors returned by the check-in route: the explicit already-checked-in
guard (routes/attendance.js:105-107), or the duplicate-key failure raised by
the unique index on (employeeId, date) (models/Attendance.js:47) when a racing
insert slipped past the guard. -/
inductive CheckInError where
  | alreadyCheckedIn
  | duplicateKey
deriving DecidableEq, Repr

/-- Insertion through the unique index on (employeeId, date)
(models/Attendance.js:47): the insert is rejected at the storage layer when a
document with the same key already exists. -/
def insertUnique (store : List AttendanceRec) (a : AttendanceRec) :
    Option (List AttendanceRec) :=
  if store.any (fun b => b.employeeId == a.employeeId && b.date == a.date) then
    none
  else some (store ++ [a])

/-- The POST /check-in handler run atomically (routes/attendance.js:88-146):
reject with the already-checked-in error when a document for (employee, today)
exists, otherwise insert the new attendance document through the unique
index. -/
def checkInRoute (store : List AttendanceRec) (empId : ℕ) (now : ℤ) :
    Except CheckInError (List AttendanceRec) :=
  let today := dayStart now
  if (findAttendance store empId today).isSome then
    Except.error CheckInError.alreadyCheckedIn
  else
    match insertUnique store (mkAttendance empId now) with
    | some s => Except.ok s
    | none => Except.error CheckInError.duplicateKey

/-- The (employeeId, date) key predicate of the unique attendance index
(models/Attendance.js:47). -/
def keyMatch (empId : ℕ) (day : ℤ) (b : AttendanceRec) : Bool :=
  b.employeeId == empId && b.date == day

/-- Number of attendance documents stored for one (employeeId, day) key. -/
def countKey (store : List AttendanceRec) (empId : ℕ) (day : ℤ) : ℕ :=
  (store.filter (keyMatch empId day)).length

/-- Where one check-in attempt stands: before its existence check, past the
check, finished with an inserted document, rejected by the explicit guard, or
rejected by the unique index at insert time. -/
inductive RacePhase where
  | ready
  | passed
  | succeeded
  | failedExisting
  | failedDup
deriving DecidableEq, Repr

/-- The shared store together with the phase of each of two racing check-in
attempts. -/
structure RaceState where
  store : List AttendanceRec
  ph1 : RacePhase
  ph2 : RacePhase
deriving Repr

/-- One primitive step of a check-in attempt: the existence check
(routes/attendance.js:100-107) when ready, the unique-index insert
(routes/attendance.js:129, models/Attendance.js:47) once past the check; a
finished attempt does nothing. -/
def attemptStep (empId : ℕ) (now : ℤ) (ph : RacePhase)
    (store : List AttendanceRec) : RacePhase × List AttendanceRec :=
  match ph with
  | RacePhase.ready =>
      if (findAttendance store empId (dayStart now)).isSome then
        (RacePhase.failedExisting, store)
      else (RacePhase.passed, store)
  | RacePhase.passed =>
      match insertUnique store (mkAttendance empId now) with
      | some s => (RacePhase.succeeded, s)
      | none => (RacePhase.failedDup, store)
  | p => (p, store)

/-- Scheduler step: true moves the first attempt, false the second. -/
def raceStep (empId : ℕ) (now1 now2 : ℤ) (s : RaceState) (moveFirst : Bool) :
    RaceState :=
  if moveFirst then
    let r := attemptStep empId now1 s.ph1 s.store
    { s with ph1 := r.1, store := r.2 }
  else
    let r := attemptStep empId now2 s.ph2 s.store
    { s with ph2 := r.1, store := r.2 }

/-- Run two racing check-in attempts under an arbitrary interleaving. -/
def raceRun (empId : ℕ) (now1 now2 : ℤ) (schedule : List Bool)
    (s : RaceState) : RaceState :=
  schedule.foldl (raceStep empId now1 now2) s

/-- How many of the two attempts have succeeded. -/
def succCount (s : RaceState) : ℕ :=
  (if s.ph1 = RacePhase.succeeded then 1 else 0) +
    (if s.ph2 = RacePhase.succeeded then 1 else 0)

/-- A phase that can take no further step. -/
def RacePhase.final : RacePhase → Bool
  | RacePhase.ready => false
  | RacePhase.passed => false
  | _ => true

/-- The hourly rate derived inside Employee.calculateSalary
(models/Employee.js:133): base monthly salary divided by 8 hours times 22
days. -/
def hourlyRate (salary : ℚ) : ℚ := salary / (8 * 22)

/-- The hourly rate derived inside the GET /salary aggregation pipeline
(routes/statistics.js:278-280): dollar-divide of salary by 8 times 22. -/
def statsHourlyRate (salary : ℚ) : ℚ := salary / (8 * 22)

/-- The hourlyRate field stored on a newly created employee
(routes/employees.js, POST handler: Number(salary) / (8 * 22)). -/
def createEmployeeHourlyRate (salary : ℚ) : ℚ := salary / (8 * 22)

/-- The record returned by Employee.calculateSalary
(models/Employee.js:138-145). -/
structure SalaryResult where
  baseSalary : ℚ
  workingHours : ℚ
  overtimeHours : ℚ
  regularPay : ℚ
  overtimePay : ℚ
  totalSalary : ℚ
deriving DecidableEq, Repr

/-- The dollar-match predicate of the calculateSalary aggregation
(models/Employee.js:116-122): the attendance document belongs to the
employee, its date lies in the inclusive period, and its status is
present. -/
def inPayrollPeriod (empId : ℕ) (startDate endDate : ℤ) (r : AttendanceRec) :
    Bool :=
  r.employeeId == empId && startDate ≤ r.date && r.date ≤ endDate &&
    r.status == AttStatus.present

/-- Employee.calculateSalary (models/Employee.js:111-146): sum workingHours
and overtime over the matching attendance documents, derive hourly rate,
regular pay and overtime pay with the fixed 1.5 premium, and round only the
three returned pay figures to two decimals (the total is rounded from the
unrounded sum). -/
def calculateSalary (empId : ℕ) (salary : ℚ) (attStore : List AttendanceRec)
    (startDate endDate : ℤ) : SalaryResult :=
  let matched := attStore.filter (inPayrollPeriod empId startDate endDate)
  let totalWorkingHours := (matched.map AttendanceRec.workingHours).sum
  let totalOvertimeHours := (matched.map AttendanceRec.overtime).sum
  let rate := salary / (8 * 22)
  let regularPay := totalWorkingHours * rate
  let overtimePay := totalOvertimeHours * rate * (15 / 10)
  { baseSalary := salary
    workingHours := totalWorkingHours
    overtimeHours := totalOvertimeHours
    regularPay := round2 regularPay
    overtimePay := round2 overtimePay
    totalSalary := round2 (regularPay + overtimePay) }

/-- A JavaScript number as the aggregation code observes it: an exact
rational, NaN, or a signed infinity. -/
inductive JsNum where
  | num (q : ℚ)
  | nan
  | inf
  | ninf
deriving DecidableEq, Repr

/-- JavaScript division: finite quotient when the divisor is nonzero,
otherwise NaN for 0/0 and a signed infinity for x/0. -/
def jsDiv (a b : ℚ) : JsNum :=
  if b ≠ 0 then JsNum.num (a / b)
  else if a = 0 then JsNum.nan
  else if a > 0 then JsNum.inf
  else JsNum.ninf

/-- Number(x.toFixed(2)) lifted to JavaScript numbers: NaN and the infinities
pass through unchanged. -/
def jsToFixed2 : JsNum → JsNum
  | JsNum.num q => JsNum.num (round2 q)
  | x => x

/-- The per-department group produced by the GET /salary pipeline, restricted
to the two fields the summary reads (routes/statistics.js:311-332). -/
structure DeptGroup where
  totalEmployees : ℕ
  totalSalary : ℚ
deriving DecidableEq, Repr

/-- summary.avgSalary of the GET /salary handler
(routes/statistics.js:343-348): the reduce-summed total salary divided by the
reduce-summed employee count, with no emptiness guard. -/
def salarySummaryAvg (stats : List DeptGroup) : JsNum :=
  jsDiv (stats.foldl (fun sum dept => sum + dept.totalSalary) 0)
    (stats.foldl (fun sum dept => sum + (dept.totalEmployees : ℚ)) 0)

/-- One row of the GET /report/all aggregation output, restricted to the
fields the total summary reads (routes/attendance.js:539-568). -/
structure ReportRow where
  totalWorkingHours : ℚ
  totalOvertimeHours : ℚ
  totalLateMinutes : ℤ
deriving DecidableEq, Repr

/-- totalSummary.avgWorkingHours of the GET /report/all handler
(routes/attendance.js:596-602): the reduce-summed working hours divided by
report.length, then passed through toFixed(2), with no emptiness guard. -/
def reportAllAvgWorkingHours (report : List ReportRow) : JsNum :=
  jsToFixed2
    (jsDiv (report.foldl (fun sum r => sum + r.totalWorkingHours) 0)
      ((report.length : ℚ)))

/-- One employee document as the employee routes use it: its id, the linked
user account (unique 1:1, models/Employee.js:4-9) and the referenced
department (models/Employee.js:34-38). -/
structure EmployeeDoc where
  id : ℕ
  userId : Option ℕ
  department : Option ℕ
deriving DecidableEq, Repr

/-- The durable store the employee routes mutate: user account ids, employee
documents, and the per-department stored employeeCount counter that the
dollar-inc updates target. -/
structure HRStore where
  users : List ℕ
  employees : List EmployeeDoc
  deptCounts : ℕ → ℤ

/-- Department.updateOne dollar-inc of employeeCount by k. -/
def incDept (counts : ℕ → ℤ) (d : ℕ) (k : ℤ) : ℕ → ℤ :=
  fun x => if x = d then counts x + k else counts x

/-- The live number of employee documents referencing a department, which is
what the employeeCount virtual on Department counts
(models/Department.js:29-34). -/
def refCount (st : HRStore) (d : ℕ) : ℕ :=
  (st.employees.filter (fun e => e.department == some d)).length

/-- User.findByIdAndDelete in the employee deletion handler. -/
def removeUser (st : HRStore) (u : ℕ) : HRStore :=
  { st with users := st.users.filter (fun x => x ≠ u) }

/-- Employee.findByIdAndDelete in the employee deletion handler. -/
def removeEmployee (st : HRStore) (empId : ℕ) : HRStore :=
  { st with employees := st.employees.filter (fun e => e.id ≠ empId) }

/-- Errors surfaced by the employee deletion handler: the 404 when the
employee does not exist, and the 500 produced by the catch block when one of
the awaited store operations throws. -/
inductive DelError where
  | notFound
  | stepFailed
deriving DecidableEq, Repr

/-- The DELETE /:id employee handler (routes/employees.js:715-758): delete
the linked user account if any, delete the employee document, decrement the
department counter — three independent awaits in sequence.  Each boolean flag
says whether the corresponding store operation throws when executed; a throw
lands in the catch block, which returns the 500 response without touching the
store, so the effects applied before the failing step persist. -/
def deleteEmployee (st : HRStore) (empId : ℕ) (f1 f2 f3 : Bool) :
    Option DelError × HRStore :=
  match st.employees.find? (fun e => e.id == empId) with
  | none => (some DelError.notFound, st)
  | some emp =>
      match emp.userId with
      | some u =>
          if f1 then (some DelError.stepFailed, st)
          else
            let st1 := removeUser st u
            if f2 then (some DelError.stepFailed, st1)
            else
              let st2 := removeEmployee st1 empId
              match emp.department with
              | some d =>
                  if f3 then (some DelError.stepFailed, st2)
                  else (none, { st2 with deptCounts := incDept st2.deptCounts d (-1) })
              | none => (none, st2)
      | none =>
          if f2 then (some DelError.stepFailed, st)
          else
            let st2 := removeEmployee st empId
            match emp.department with
            | some d =>
                if f3 then (some DelError.stepFailed, st2)
                else (none, { st2 with deptCounts := incDept st2.deptCounts d (-1) })
            | none => (none, st2)

/-- The update paths that matter for the department updates: the four paths
declared on departmentSchema (models/Department.js:3-26) and the
employeeCount name, which is not a schema path — it exists only as a
populate-count virtual (models/Department.js:29-34). -/
inductive DeptPath where
  | name
  | description
  | manager
  | isActive
  | employeeCount
deriving DecidableEq, Repr

/-- The paths declared on departmentSchema (models/Department.js:3-26):
name, description, manager, isActive.  employeeCount is absent. -/
def departmentSchemaPaths : List DeptPath :=
  [DeptPath.name, DeptPath.description, DeptPath.manager, DeptPath.isActive]

/-- Department.updateOne with a dollar-inc of employeeCount, as mongoose 7
executes it under its default strict mode: an update path not declared in
the schema is stripped from the update before it reaches the store, and
employeeCount is not a departmentSchemaPaths member, so the operation leaves
every stored department document unchanged. -/
def deptIncEmployeeCount (counts : ℕ → ℤ) (d : ℕ) (k : ℤ) : ℕ → ℤ :=
  if departmentSchemaPaths.contains DeptPath.employeeCount then
    fun x => if x = d then counts x + k else counts x
  else counts

/-- The post-save middleware on the Employee schema
(models/Employee.js:90-95): every successful save issues
Department.updateOne dollar-inc employeeCount 1 on the referenced
department, which strict mode strips (see deptIncEmployeeCount). -/
def employeePostSave (st : HRStore) (emp : EmployeeDoc) : HRStore :=
  match emp.department with
  | some d => { st with deptCounts := deptIncEmployeeCount st.deptCounts d 1 }
  | none => st

/-- The success path of the POST / employee creation handler
(routes/employees.js, after validation): save the new user account, save the
new employee document — which fires the post-save middleware and its
dollar-inc — and then issue the route-level explicit dollar-inc of the same
employeeCount path (routes/employees.js:544-549); both increments go through
deptIncEmployeeCount, the strict-mode update semantics. -/
def createEmployeeRoute (st : HRStore) (newUserId : ℕ) (emp : EmployeeDoc) :
    HRStore :=
  let st1 := { st with users := st.users ++ [newUserId] }
  let st2 := employeePostSave
    { st1 with employees := st1.employees ++ [emp] } emp
  match emp.department with
  | some d => { st2 with deptCounts := deptIncEmployeeCount st2.deptCounts d 1 }
  | none => st2

/-- Errors of the overtime request creation route. -/
inductive OTError where
  | pastDateNotAllowed
  | invalidHours
deriving DecidableEq, Repr

/-- Modelled from the spec: the OvertimeRequest mongoose model file is not
present under src/ (only its callers are).  Per the spec, requestedHours is a
positive decimal — the model validation rejects a non-positive value — and a
newly created request has status pending. -/
def overtimeHoursValid (requestedHours : ℚ) : Bool :=
  decide (0 < requestedHours)

/-- The POST /request overtime handler (routes/departments.js overtime
section and src/unnamed/part_008:69-95): parse the date, reject it when it is
earlier than the current moment, then construct and save the request — the
save runs the model validation on requestedHours (spec-modelled, see
overtimeHoursValid) and persists with the default status pending. -/
def requestOvertime (empId : ℕ) (date : ℤ) (requestedHours : ℚ) (now : ℤ) :
    Except OTError OvertimeRequest :=
  if date < now then Except.error OTError.pastDateNotAllowed
  else if overtimeHoursValid requestedHours then
    Except.ok
      { employeeId := empId
        date := date
        requestedHours := requestedHours
        status := OTStatus.pending }
  else Except.error OTError.invalidHours

lemma mkAttendance_employeeId (e : ℕ) (n : ℤ) :
    (mkAttendance e n).employeeId = e := rfl

lemma mkAttendance_date (e : ℕ) (n : ℤ) : (mkAttendance e n).date = dayStart n :=
  rfl

lemma keyMatch_mkAttendance (e : ℕ) (n : ℤ) :
    keyMatch e (dayStart n) (mkAttendance e n) = true := by
  simp [keyMatch, mkAttendance]

lemma findAttendance_isSome_iff (store : List AttendanceRec) (e : ℕ) (d : ℤ) :
    (findAttendance store e d).isSome ↔ store.any (keyMatch e d) = true := by
  simp [findAttendance, keyMatch, List.find?_isSome, List.any_eq_true]

lemma any_iff_countKey_pos (store : List AttendanceRec) (e : ℕ) (d : ℤ) :
    store.any (keyMatch e d) = true ↔ 0 < countKey store e d := by
  simp only [countKey, List.length_pos, List.any_eq_true, Ne,
    List.filter_eq_nil_iff, not_forall]
  constructor
  · rintro ⟨x, hx, hpx⟩
    exact ⟨x, hx, by simp [hpx]⟩
  · rintro ⟨x, hx, hpx⟩
    exact ⟨x, hx, by simpa using hpx⟩

lemma countKey_append_of_match (store : List AttendanceRec) (e : ℕ) (d : ℤ)
    (a : AttendanceRec) (h : keyMatch e d a = true) :
    countKey (store ++ [a]) e d = countKey store e d + 1 := by
  simp [countKey, List.filter_append, h]

lemma insertUnique_mkAttendance (store : List AttendanceRec) (e : ℕ) (n : ℤ) :
    insertUnique store (mkAttendance e n) =
      if store.any (keyMatch e (dayStart n)) then none
      else some (store ++ [mkAttendance e n]) := rfl

/-- Claim C2: the derived hourly rate is salary / 176 (the fixed 8 hours by
22 days convention), and the same formula is used at every place pay is
derived: inside Employee.calculateSalary, inside the GET /salary aggregation
pipeline, and when an employee is created. -/
theorem C2_hourly_rate_uniform (s : ℚ) :
    hourlyRate s = s / 176 ∧ statsHourlyRate s = s / 176 ∧
      createEmployeeHourlyRate s = s / 176 := by
  refine ⟨?_, ?_, ?_⟩ <;>
    norm_num [hourlyRate, statsHourlyRate, createEmployeeHourlyRate]

/-- Claim C3: the payroll computation sums workingHours and overtime only
over attendance records with status present whose date lies in the inclusive
period, returns regularPay equal to the working-hour total times salary / 176,
overtimePay equal to the overtime total times salary / 176 times 1.5, and
totalSalary equal to their (unrounded) sum, with rounding to two decimals
applied only to the three presented pay figures. -/
theorem C3_payroll_formula (empId : ℕ) (salary : ℚ)
    (attStore : List AttendanceRec) (d1 d2 : ℤ) :
    (calculateSalary empId salary attStore d1 d2).workingHours =
        ((attStore.filter (fun r => r.employeeId == empId &&
          d1 ≤ r.date && r.date ≤ d2 &&
          r.status == AttStatus.present)).map AttendanceRec.workingHours).sum ∧
      (calculateSalary empId salary attStore d1 d2).overtimeHours =
        ((attStore.filter (fun r => r.employeeId == empId &&
          d1 ≤ r.date && r.date ≤ d2 &&
          r.status == AttStatus.present)).map AttendanceRec.overtime).sum ∧
      (calculateSalary empId salary attStore d1 d2).regularPay =
        round2 ((calculateSalary empId salary attStore d1 d2).workingHours *
          (salary / 176)) ∧
      (calculateSalary empId salary attStore d1 d2).overtimePay =
        round2 ((calculateSalary empId salary attStore d1 d2).overtimeHours *
          (salary / 176) * (3 / 2)) ∧
      (calculateSalary empId salary attStore d1 d2).totalSalary =
        round2 ((calculateSalary empId salary attStore d1 d2).workingHours *
          (salary / 176) +
          (calculateSalary empId salary attStore d1 d2).overtimeHours *
            (salary / 176) * (3 / 2)) := by
  refine ⟨rfl, rfl, ?_, ?_, ?_⟩ <;> · simp only [calculateSalary, inPayrollPeriod]
                                      norm_num

/-- Claim C4 counterexample: on an empty population both average
computations return NaN, not 0 — the division by the employee count is not
guarded. -/
theorem C4_counterexample :
    salarySummaryAvg [] = JsNum.nan ∧
      reportAllAvgWorkingHours [] = JsNum.nan ∧ JsNum.nan ≠ JsNum.num 0 := by
  refine ⟨?_, ?_, by decide⟩ <;> rfl

/-- Claim C4 amended: when the employee population (of the GET /salary
summary or of the GET /report/all summary) is empty, the computed average is
NaN — the unguarded JavaScript division evaluates 0 / 0; it is not 0, though
no error is thrown. -/
theorem C4_amended_empty_avg_is_nan (stats : List DeptGroup)
    (report : List ReportRow) :
    (stats = [] → salarySummaryAvg stats = JsNum.nan) ∧
      (report = [] → reportAllAvgWorkingHours report = JsNum.nan) := by
  constructor
  · rintro rfl; rfl
  · rintro rfl; rfl

/-- Claim C4 amended, witness at the empty population. -/
theorem C4_amended_witness :
    salarySummaryAvg [] = JsNum.nan ∧
      reportAllAvgWorkingHours [] = JsNum.nan :=
  ⟨(C4_amended_empty_avg_is_nan [] []).1 rfl,
    (C4_amended_empty_avg_is_nan [] []).2 rfl⟩

/-- Claim C8: creating an overtime request fails with the past-date error
when the requested date is earlier than the current moment, fails with the
invalid-hours error when requestedHours is not positive (spec-modelled model
validation), and only a request passing both checks is persisted, with status
pending. -/
theorem C8_overtime_request_validation (empId : ℕ) (date reqNow : ℤ)
    (hours : ℚ) :
    (date < reqNow →
        requestOvertime empId date hours reqNow =
          Except.error OTError.pastDateNotAllowed) ∧
      (¬ date < reqNow → hours ≤ 0 →
        requestOvertime empId date hours reqNow =
          Except.error OTError.invalidHours) ∧
      (¬ date < reqNow → 0 < hours →
        requestOvertime empId date hours reqNow =
          Except.ok
            { employeeId := empId
              date := date
              requestedHours := hours
              status := OTStatus.pending }) := by
  refine ⟨fun h => ?_, fun h h2 => ?_, fun h h2 => ?_⟩
  · simp [requestOvertime, h]
  · simp [requestOvertime, overtimeHoursValid, h, not_lt.mpr h2]
  · simp [requestOvertime, overtimeHoursValid, h, h2]

/-- Claim C8, witness: a past date is rejected, non-positive hours are
rejected, and a valid request is persisted as pending. -/
theorem C8_witness :
    requestOvertime 0 (-1) 2 0 = Except.error OTError.pastDateNotAllowed ∧
      requestOvertime 0 1 (-3) 0 = Except.error OTError.invalidHours ∧
      requestOvertime 0 1 2 0 =
        Except.ok
          { employeeId := 0
            date := 1
            requestedHours := 2
            status := OTStatus.pending } :=
  ⟨(C8_overtime_request_validation 0 (-1) 0 2).1 (by decide),
    (C8_overtime_request_validation 0 1 0 (-3)).2.1 (by decide) (by norm_num),
    (C8_overtime_request_validation 0 1 0 2).2.2 (by decide) (by norm_num)⟩

lemma applyCheckOut_employeeId (a : AttendanceRec) (req : Option OvertimeRequest)
    (now : ℤ) : (applyCheckOut a req now).employeeId = a.employeeId := rfl

lemma applyCheckOut_date (a : AttendanceRec) (req : Option OvertimeRequest)
    (now : ℤ) : (applyCheckOut a req now).date = a.date := rfl

lemma applyCheckOut_checkOut (a : AttendanceRec) (req : Option OvertimeRequest)
    (now : ℤ) : (applyCheckOut a req now).checkOut = some now := rfl

lemma applyCheckOut_overtime_some (a : AttendanceRec) (r : OvertimeRequest)
    (now : ℤ) :
    (applyCheckOut a (some r) now).overtime =
      if 8 < rawWorkingHours a now then
        min (rawWorkingHours a now - 8) r.requestedHours
      else a.overtime := rfl

lemma applyCheckOut_overtime_none (a : AttendanceRec) (now : ℤ) :
    (applyCheckOut a none now).overtime = a.overtime := rfl

lemma findAttendance_saveAttendance (store : List AttendanceRec) (e : ℕ)
    (d : ℤ) (a2 : AttendanceRec) (h : (findAttendance store e d).isSome = true)
    (h2 : keyMatch e d a2 = true) :
    findAttendance (saveAttendance store e d a2) e d = some a2 := by
  induction store with
  | nil => simp [findAttendance] at h
  | cons b tl ih =>
      by_cases hb : (b.employeeId == e && b.date == d) = true
      · unfold saveAttendance findAttendance
        simp only [List.map_cons]
        rw [if_pos hb]
        exact List.find?_cons_of_pos _ h2
      · unfold saveAttendance findAttendance
        simp only [List.map_cons]
        rw [if_neg hb,
          List.find?_cons_of_neg (p := fun a : AttendanceRec => a.employeeId == e && a.date == d)
            _ hb]
        have h' : (findAttendance tl e d).isSome = true := by
          unfold findAttendance at h
          rwa [List.find?_cons_of_neg
            (p := fun a : AttendanceRec => a.employeeId == e && a.date == d) _ hb] at h
        exact ih h'

/-- Claim C1: at check-out, when an approved overtime request exists for
(employeeId, today) and the raw elapsed working hours exceed 8, the saved
record carries overtime equal to the excess clamped by the approved
requestedHours; when no approved request exists, the stored overtime stays 0
even if the elapsed hours exceed 8. -/
theorem C1_overtime_capped (attStore : List AttendanceRec)
    (otStore : List OvertimeRequest) (empId : ℕ) (now : ℤ)
    (a : AttendanceRec) (r : OvertimeRequest)
    (hfind : findAttendance attStore empId (dayStart now) = some a)
    (hco : a.checkOut = none) :
    (checkOutRoute attStore otStore empId now =
        (none, saveAttendance attStore empId (dayStart now)
          (applyCheckOut a (findApprovedOT otStore empId (dayStart now)) now))) ∧
      (findApprovedOT otStore empId (dayStart now) = some r →
        8 < rawWorkingHours a now →
        (applyCheckOut a (findApprovedOT otStore empId (dayStart now))
            now).overtime =
          min (rawWorkingHours a now - 8) r.requestedHours) ∧
      (findApprovedOT otStore empId (dayStart now) = none → a.overtime = 0 →
        (applyCheckOut a (findApprovedOT otStore empId (dayStart now))
            now).overtime = 0) := by
  refine ⟨?_, fun hot h8 => ?_, fun hot h0 => ?_⟩
  · simp [checkOutRoute, hfind, hco]
  · rw [hot, applyCheckOut_overtime_some, if_pos h8]
  · rw [hot, applyCheckOut_overtime_none, h0]

/-- A concrete checked-in attendance record: employee 1 checked in at 08:00
of epoch day zero. -/
def c1AttW : AttendanceRec := mkAttendance 1 (8 * msPerHour)

/-- A concrete approved overtime request for employee 1 on epoch day zero,
three hours approved. -/
def c1OTW : OvertimeRequest :=
  { employeeId := 1, date := 0, requestedHours := 3, status := OTStatus.approved }

/-- Claim C1, witness: check-in 08:00, check-out 18:00 (10 elapsed hours)
with an approved request for 3 hours stores overtime min(10 - 8, 3) = 2;
without any approved request the stored overtime is 0. -/
theorem C1_witness :
    (applyCheckOut c1AttW
        (findApprovedOT [c1OTW] 1 (dayStart (18 * msPerHour)))
        (18 * msPerHour)).overtime = 2 ∧
      (applyCheckOut c1AttW (findApprovedOT [] 1 (dayStart (18 * msPerHour)))
        (18 * msPerHour)).overtime = 0 := by
  have h8 : (8 : ℚ) < rawWorkingHours c1AttW (18 * msPerHour) := by
    norm_num [rawWorkingHours, c1AttW, mkAttendance, msPerHour]
  constructor
  · have h := (C1_overtime_capped [c1AttW] [c1OTW] 1 (18 * msPerHour) c1AttW
      c1OTW (by decide) rfl).2.1 (by decide) h8
    refine h.trans ?_
    norm_num [rawWorkingHours, c1AttW, mkAttendance, msPerHour, c1OTW]
  · exact (C1_overtime_capped [c1AttW] [] 1 (18 * msPerHour) c1AttW c1OTW
      (by decide) rfl).2.2 rfl rfl

/-- Claim C7: check-out fails with the no-check-in error when no attendance
record exists for (employeeId, today) and with the already-checked-out error
when the record already has checkOut set, leaving the store unchanged in both
failure cases; after a successful check-out, a second same-day check-out
fails with the already-checked-out error and changes nothing, so each day
record is mutated by check-out at most once. -/
theorem C7_check_out_transitions (attStore : List AttendanceRec)
    (otStore : List OvertimeRequest) (empId : ℕ) (now : ℤ)
    (a : AttendanceRec) :
    (findAttendance attStore empId (dayStart now) = none →
        checkOutRoute attStore otStore empId now =
          (some CheckOutError.noCheckInFound, attStore)) ∧
      (findAttendance attStore empId (dayStart now) = some a →
        a.checkOut.isSome →
        checkOutRoute attStore otStore empId now =
          (some CheckOutError.alreadyCheckedOut, attStore)) ∧
      (findAttendance attStore empId (dayStart now) = some a →
        a.checkOut = none →
        ∀ now2, dayStart now2 = dayStart now →
          checkOutRoute (checkOutRoute attStore otStore empId now).2 otStore
              empId now2 =
            (some CheckOutError.alreadyCheckedOut,
              (checkOutRoute attStore otStore empId now).2)) := by
  refine ⟨fun hnone => ?_, fun hfind hco => ?_, fun hfind hco now2 hday => ?_⟩
  · simp [checkOutRoute, hnone]
  · simp [checkOutRoute, hfind, hco]
  · have hkey : keyMatch empId (dayStart now) a = true :=
      List.find?_some hfind
    set a2 := applyCheckOut a (findApprovedOT otStore empId (dayStart now)) now
      with ha2
    have hkey2 : keyMatch empId (dayStart now) a2 = true := by
      rw [ha2]
      simpa [keyMatch, applyCheckOut_employeeId, applyCheckOut_date] using hkey
    have hsome : (findAttendance attStore empId (dayStart now)).isSome = true := by
      simp [hfind]
    have hst : (checkOutRoute attStore otStore empId now).2 =
        saveAttendance attStore empId (dayStart now) a2 := by
      simp [checkOutRoute, hfind, hco]
    have hfind2 : findAttendance
        (saveAttendance attStore empId (dayStart now) a2) empId (dayStart now) =
          some a2 :=
      findAttendance_saveAttendance attStore empId (dayStart now) a2 hsome hkey2
    have hco2 : a2.checkOut = some now := by
      rw [ha2]; exact applyCheckOut_checkOut a _ now
    rw [hst]
    simp [checkOutRoute, hday, hfind2, hco2]

/-- Claim C7, witness: with an empty store check-out fails with the
no-check-in error; after the employee checked in and checked out once, a
second check-out the same day fails with the already-checked-out error and
leaves the store as it was. -/
theorem C7_witness :
    checkOutRoute [] [] 1 (18 * msPerHour) =
        (some CheckOutError.noCheckInFound, []) ∧
      checkOutRoute (checkOutRoute [c1AttW] [] 1 (18 * msPerHour)).2 [] 1
          (19 * msPerHour) =
        (some CheckOutError.alreadyCheckedOut,
          (checkOutRoute [c1AttW] [] 1 (18 * msPerHour)).2) :=
  ⟨(C7_check_out_transitions [] [] 1 (18 * msPerHour) c1AttW).1 rfl,
    (C7_check_out_transitions [c1AttW] [] 1 (18 * msPerHour) c1AttW).2.2
      (by decide) rfl (19 * msPerHour) (by decide)⟩

/-- Claim C10: an overtime request whose date is the date-only value of the
current day — parsed to midnight, i.e. dayStart now — is rejected as a past
date whenever it is submitted strictly after midnight, because the handler
compares the parsed date against the full current timestamp. -/
theorem C10_same_day_request_rejected (empId : ℕ) (now : ℤ) (hours : ℚ)
    (h : dayStart now < now) :
    requestOvertime empId (dayStart now) hours now =
      Except.error OTError.pastDateNotAllowed := by
  simp [requestOvertime, h]

/-- Claim C10, witness: a request for the current day submitted one
millisecond after midnight is rejected. -/
theorem C10_witness :
    requestOvertime 3 (dayStart 1) 5 1 =
      Except.error OTError.pastDateNotAllowed :=
  C10_same_day_request_rejected 3 1 5 (by decide)

/-- A concrete store holding one employee (id 1) with a linked user account
(id 7) in department 4, whose stored counter is 1. -/
def c5Store : HRStore :=
  { users := [7]
    employees := [{ id := 1, userId := some 7, department := some 4 }]
    deptCounts := fun _ => 1 }

/-- Claim C5 counterexample: deleting employee 1 from c5Store with the
employee-record deletion step failing returns an error, yet the linked user
account has already been removed while the employee record is retained — the
completed first step is not undone. -/
theorem C5_counterexample :
    (deleteEmployee c5Store 1 false true false).1 = some DelError.stepFailed ∧
      (deleteEmployee c5Store 1 false true false).2.users ≠ c5Store.users ∧
      (deleteEmployee c5Store 1 false true false).2.employees =
        c5Store.employees := by
  refine ⟨rfl, by decide, rfl⟩

/-- Claim C5 amended: employee deletion is sequential and non-atomic — the
three steps (remove the linked user account, remove the employee record,
decrement the department counter) run in order, and when a step fails the
handler returns the error with every earlier step's effect retained and no
later step performed; nothing is rolled back. -/
theorem C5_amended_no_rollback (st : HRStore) (empId u d : ℕ)
    (emp : EmployeeDoc) (f2 f3 : Bool)
    (hfind : st.employees.find? (fun e => e.id == empId) = some emp)
    (hu : emp.userId = some u) (hd : emp.department = some d) :
    (deleteEmployee st empId true f2 f3 = (some DelError.stepFailed, st)) ∧
      (deleteEmployee st empId false true f3 =
        (some DelError.stepFailed, removeUser st u)) ∧
      (deleteEmployee st empId false false true =
        (some DelError.stepFailed, removeEmployee (removeUser st u) empId)) ∧
      (deleteEmployee st empId false false false =
        (none, { removeEmployee (removeUser st u) empId with
            deptCounts :=
              incDept (removeEmployee (removeUser st u) empId).deptCounts d
                (-1) })) := by
  refine ⟨?_, ?_, ?_, ?_⟩ <;> simp [deleteEmployee, hfind, hu, hd]

/-- Claim C5 amended, witness: on c5Store with the second step failing, the
handler returns the error with the user account removed and nothing rolled
back. -/
theorem C5_amended_witness :
    deleteEmployee c5Store 1 false true false =
      (some DelError.stepFailed, removeUser c5Store 7) :=
  (C5_amended_no_rollback c5Store 1 7 4
    { id := 1, userId := some 7, department := some 4 } true false rfl rfl
    rfl).2.1

lemma employeeCount_not_schema_path :
    departmentSchemaPaths.contains DeptPath.employeeCount = false := by decide

lemma deptIncEmployeeCount_eq (counts : ℕ → ℤ) (d : ℕ) (k : ℤ) :
    deptIncEmployeeCount counts d k = counts := by
  unfold deptIncEmployeeCount
  rw [employeeCount_not_schema_path]
  simp

/-- A concrete empty store whose department counters are all 0. -/
def c9Store : HRStore :=
  { users := [], employees := [], deptCounts := fun _ => 0 }

/-- Claim C9 counterexample: creating one employee in department 4 of the
empty store does not raise the stored per-department counter by two — it is
not incremented at all, because both dollar-inc updates target the
employeeCount path, which is not declared in departmentSchema and is
stripped by the default strict mode of mongoose 7. -/
theorem C9_counterexample :
    ¬ ((createEmployeeRoute c9Store 9
        { id := 1, userId := some 9, department := some 4 }).deptCounts 4 =
          c9Store.deptCounts 4 + 2) := by
  simp [createEmployeeRoute, employeePostSave, deptIncEmployeeCount_eq,
    c9Store]

/-- Claim C9 amended: successfully creating one employee issues two
dollar-inc updates of the referenced department employeeCount — one through
the post-save middleware on the Employee schema and one through the creation
route — but employeeCount is not a departmentSchema path and the default
strict mode of mongoose 7 strips both updates, so no stored counter changes,
while the employeeCount a reader observes — the live populate-count virtual
over referencing employees (models/Department.js:29-34) — grows by exactly
one and stays equal to the number of employees referencing the
department. -/
theorem C9_inc_stripped (st : HRStore) (u : ℕ) (emp : EmployeeDoc) (d : ℕ)
    (hd : emp.department = some d) :
    (createEmployeeRoute st u emp).deptCounts = st.deptCounts ∧
      refCount (createEmployeeRoute st u emp) d = refCount st d + 1 := by
  constructor
  · simp [createEmployeeRoute, employeePostSave, hd, deptIncEmployeeCount_eq]
  · simp [createEmployeeRoute, employeePostSave, refCount, hd,
      List.filter_append]

/-- Claim C9 amended, witness: creating one employee in department 4 of the
empty store leaves every stored counter unchanged while exactly one employee
now references the department. -/
theorem C9_inc_stripped_witness :
    (createEmployeeRoute c9Store 9
        { id := 1, userId := some 9, department := some 4 }).deptCounts =
        c9Store.deptCounts ∧
      refCount (createEmployeeRoute c9Store 9
        { id := 1, userId := some 9, department := some 4 }) 4 = 1 := by
  have h := C9_inc_stripped c9Store 9
    { id := 1, userId := some 9, department := some 4 } 4 rfl
  exact ⟨h.1, h.2.trans (by simp [c9Store, refCount])⟩

/-- Invariant of the two-attempt check-in race: the number of stored
documents for the contended key equals the number of attempts that have
succeeded, at most one attempt has succeeded, and an attempt can only have
failed after some attempt succeeded (the guard or the unique index saw the
inserted document). -/
def RaceInv (empId : ℕ) (day : ℤ) (s : RaceState) : Prop :=
  countKey s.store empId day = succCount s ∧ succCount s ≤ 1 ∧
    ((s.ph1 = RacePhase.failedExisting ∨ s.ph1 = RacePhase.failedDup) →
      1 ≤ succCount s) ∧
    ((s.ph2 = RacePhase.failedExisting ∨ s.ph2 = RacePhase.failedDup) →
      1 ≤ succCount s)

lemma succCount_mk (store : List AttendanceRec) (p1 p2 : RacePhase) :
    succCount { store := store, ph1 := p1, ph2 := p2 } =
      (if p1 = RacePhase.succeeded then 1 else 0) +
        (if p2 = RacePhase.succeeded then 1 else 0) := rfl

lemma raceStep_inv (empId : ℕ) (now1 now2 day : ℤ) (h1 : dayStart now1 = day)
    (h2 : dayStart now2 = day) (s : RaceState) (b : Bool)
    (hInv : RaceInv empId day s) :
    RaceInv empId day (raceStep empId now1 now2 s b) := by
  obtain ⟨store0, p1, p2⟩ := s
  obtain ⟨hc, hle, hi1, hi2⟩ := hInv
  cases b
  case true =>
    cases p1
    case ready =>
      by_cases hf : (findAttendance store0 empId day).isSome = true
      · have hstep : raceStep empId now1 now2
            { store := store0, ph1 := RacePhase.ready, ph2 := p2 } true =
            { store := store0, ph1 := RacePhase.failedExisting, ph2 := p2 } := by
          simp [raceStep, attemptStep, h1, hf]
        have hpos : 0 < countKey store0 empId day :=
          (any_iff_countKey_pos _ _ _).1 ((findAttendance_isSome_iff _ _ _).1 hf)
        have hsc : succCount
            { store := store0, ph1 := RacePhase.failedExisting, ph2 := p2 } =
            succCount { store := store0, ph1 := RacePhase.ready, ph2 := p2 } := by
          simp [succCount_mk]
        rw [hstep]
        refine ⟨hsc.symm ▸ hc, hsc ▸ hle, fun _ => ?_, fun hx => hsc ▸ hi2 hx⟩
        rw [hsc, ← hc]
        exact hpos
      · have hstep : raceStep empId now1 now2
            { store := store0, ph1 := RacePhase.ready, ph2 := p2 } true =
            { store := store0, ph1 := RacePhase.passed, ph2 := p2 } := by
          simp [raceStep, attemptStep, h1, hf]
        have hsc : succCount
            { store := store0, ph1 := RacePhase.passed, ph2 := p2 } =
            succCount { store := store0, ph1 := RacePhase.ready, ph2 := p2 } := by
          simp [succCount_mk]
        rw [hstep]
        exact ⟨hsc.symm ▸ hc, hsc ▸ hle,
          fun hx => absurd hx (by simp), fun hx => hsc ▸ hi2 hx⟩
    case passed =>
      by_cases ha : store0.any (keyMatch empId day) = true
      · have hstep : raceStep empId now1 now2
            { store := store0, ph1 := RacePhase.passed, ph2 := p2 } true =
            { store := store0, ph1 := RacePhase.failedDup, ph2 := p2 } := by
          simp [raceStep, attemptStep, insertUnique_mkAttendance, h1, ha]
        have hpos : 0 < countKey store0 empId day :=
          (any_iff_countKey_pos _ _ _).1 ha
        have hsc : succCount
            { store := store0, ph1 := RacePhase.failedDup, ph2 := p2 } =
            succCount { store := store0, ph1 := RacePhase.passed, ph2 := p2 } := by
          simp [succCount_mk]
        rw [hstep]
        refine ⟨hsc.symm ▸ hc, hsc ▸ hle, fun _ => ?_, fun hx => hsc ▸ hi2 hx⟩
        rw [hsc, ← hc]
        exact hpos
      · have hstep : raceStep empId now1 now2
            { store := store0, ph1 := RacePhase.passed, ph2 := p2 } true =
            { store := store0 ++ [mkAttendance empId now1],
              ph1 := RacePhase.succeeded, ph2 := p2 } := by
          simp [raceStep, attemptStep, insertUnique_mkAttendance, h1, ha]
        have hzero : countKey store0 empId day = 0 := by
          by_contra hk
          exact ha ((any_iff_countKey_pos _ _ _).2 (Nat.pos_of_ne_zero hk))
        have happ : countKey (store0 ++ [mkAttendance empId now1]) empId day =
            countKey store0 empId day + 1 :=
          countKey_append_of_match _ _ _ _ (h1 ▸ keyMatch_mkAttendance empId now1)
        have hs0 : succCount
            { store := store0, ph1 := RacePhase.passed, ph2 := p2 } = 0 :=
          hc.symm.trans hzero
        have hp2 : p2 ≠ RacePhase.succeeded := by
          intro hps
          rw [succCount_mk, hps] at hs0
          simp at hs0
        have hnew : succCount
            { store := store0 ++ [mkAttendance empId now1],
              ph1 := RacePhase.succeeded, ph2 := p2 } = 1 := by
          simp [succCount_mk, hp2]
        rw [hstep]
        refine ⟨?_, ?_, fun _ => ?_, fun _ => ?_⟩
        · rw [hnew]
          show countKey (store0 ++ [mkAttendance empId now1]) empId day = 1
          rw [happ, hzero]
        · rw [hnew]
        · rw [hnew]
        · rw [hnew]
    case succeeded => exact ⟨hc, hle, hi1, hi2⟩
    case failedExisting => exact ⟨hc, hle, hi1, hi2⟩
    case failedDup => exact ⟨hc, hle, hi1, hi2⟩
  case false =>
    cases p2
    case ready =>
      by_cases hf : (findAttendance store0 empId day).isSome = true
      · have hstep : raceStep empId now1 now2
            { store := store0, ph1 := p1, ph2 := RacePhase.ready } false =
            { store := store0, ph1 := p1, ph2 := RacePhase.failedExisting } := by
          simp [raceStep, attemptStep, h2, hf]
        have hpos : 0 < countKey store0 empId day :=
          (any_iff_countKey_pos _ _ _).1 ((findAttendance_isSome_iff _ _ _).1 hf)
        have hsc : succCount
            { store := store0, ph1 := p1, ph2 := RacePhase.failedExisting } =
            succCount { store := store0, ph1 := p1, ph2 := RacePhase.ready } := by
          simp [succCount_mk]
        rw [hstep]
        refine ⟨hsc.symm ▸ hc, hsc ▸ hle, fun hx => hsc ▸ hi1 hx, fun _ => ?_⟩
        rw [hsc, ← hc]
        exact hpos
      · have hstep : raceStep empId now1 now2
            { store := store0, ph1 := p1, ph2 := RacePhase.ready } false =
            { store := store0, ph1 := p1, ph2 := RacePhase.passed } := by
          simp [raceStep, attemptStep, h2, hf]
        have hsc : succCount
            { store := store0, ph1 := p1, ph2 := RacePhase.passed } =
            succCount { store := store0, ph1 := p1, ph2 := RacePhase.ready } := by
          simp [succCount_mk]
        rw [hstep]
        exact ⟨hsc.symm ▸ hc, hsc ▸ hle,
          fun hx => hsc ▸ hi1 hx, fun hx => absurd hx (by simp)⟩
    case passed =>
      by_cases ha : store0.any (keyMatch empId day) = true
      · have hstep : raceStep empId now1 now2
            { store := store0, ph1 := p1, ph2 := RacePhase.passed } false =
            { store := store0, ph1 := p1, ph2 := RacePhase.failedDup } := by
          simp [raceStep, attemptStep, insertUnique_mkAttendance, h2, ha]
        have hpos : 0 < countKey store0 empId day :=
          (any_iff_countKey_pos _ _ _).1 ha
        have hsc : succCount
            { store := store0, ph1 := p1, ph2 := RacePhase.failedDup } =
            succCount { store := store0, ph1 := p1, ph2 := RacePhase.passed } := by
          simp [succCount_mk]
        rw [hstep]
        refine ⟨hsc.symm ▸ hc, hsc ▸ hle, fun hx => hsc ▸ hi1 hx, fun _ => ?_⟩
        rw [hsc, ← hc]
        exact hpos
      · have hstep : raceStep empId now1 now2
            { store := store0, ph1 := p1, ph2 := RacePhase.passed } false =
            { store := store0 ++ [mkAttendance empId now2],
              ph1 := p1, ph2 := RacePhase.succeeded } := by
          simp [raceStep, attemptStep, insertUnique_mkAttendance, h2, ha]
        have hzero : countKey store0 empId day = 0 := by
          by_contra hk
          exact ha ((any_iff_countKey_pos _ _ _).2 (Nat.pos_of_ne_zero hk))
        have happ : countKey (store0 ++ [mkAttendance empId now2]) empId day =
            countKey store0 empId day + 1 :=
          countKey_append_of_match _ _ _ _ (h2 ▸ keyMatch_mkAttendance empId now2)
        have hs0 : succCount
            { store := store0, ph1 := p1, ph2 := RacePhase.passed } = 0 :=
          hc.symm.trans hzero
        have hp1 : p1 ≠ RacePhase.succeeded := by
          intro hps
          rw [succCount_mk, hps] at hs0
          simp at hs0
        have hnew : succCount
            { store := store0 ++ [mkAttendance empId now2],
              ph1 := p1, ph2 := RacePhase.succeeded } = 1 := by
          simp [succCount_mk, hp1]
        rw [hstep]
        refine ⟨?_, ?_, fun _ => ?_, fun _ => ?_⟩
        · rw [hnew]
          show countKey (store0 ++ [mkAttendance empId now2]) empId day = 1
          rw [happ, hzero]
        · rw [hnew]
        · rw [hnew]
        · rw [hnew]
    case succeeded => exact ⟨hc, hle, hi1, hi2⟩
    case failedExisting => exact ⟨hc, hle, hi1, hi2⟩
    case failedDup => exact ⟨hc, hle, hi1, hi2⟩

lemma raceRun_inv (empId : ℕ) (now1 now2 day : ℤ) (h1 : dayStart now1 = day)
    (h2 : dayStart now2 = day) (schedule : List Bool) (s : RaceState)
    (hInv : RaceInv empId day s) :
    RaceInv empId day (raceRun empId now1 now2 schedule s) := by
  induction schedule generalizing s with
  | nil => exact hInv
  | cons b rest ih =>
      exact ih _ (raceStep_inv empId now1 now2 day h1 h2 s b hInv)

/-- Claim C6: the check-in guard fails with the already-checked-in error
exactly when an attendance record already exists for (employeeId, today), and
under any interleaving of two racing check-in attempts for the same employee
and day starting from a store without that key, at most one record for the
key ever exists and, once both attempts have finished, exactly one of them
succeeded. -/
theorem C6_checkin_unique (store : List AttendanceRec) (empId : ℕ)
    (now now1 now2 day : ℤ) (schedule : List Bool)
    (h1 : dayStart now1 = day) (h2 : dayStart now2 = day)
    (h0 : countKey store empId day = 0) :
    (checkInRoute store empId now = Except.error CheckInError.alreadyCheckedIn ↔
        (findAttendance store empId (dayStart now)).isSome = true) ∧
      countKey
        (raceRun empId now1 now2 schedule
          { store := store, ph1 := RacePhase.ready, ph2 := RacePhase.ready }).store
        empId day ≤ 1 ∧
      succCount
        (raceRun empId now1 now2 schedule
          { store := store, ph1 := RacePhase.ready, ph2 := RacePhase.ready }) ≤ 1 ∧
      ((raceRun empId now1 now2 schedule
          { store := store, ph1 := RacePhase.ready,
            ph2 := RacePhase.ready }).ph1.final = true →
        (raceRun empId now1 now2 schedule
          { store := store, ph1 := RacePhase.ready,
            ph2 := RacePhase.ready }).ph2.final = true →
        succCount
          (raceRun empId now1 now2 schedule
            { store := store, ph1 := RacePhase.ready,
              ph2 := RacePhase.ready }) = 1) := by
  have hInit : RaceInv empId day
      { store := store, ph1 := RacePhase.ready, ph2 := RacePhase.ready } := by
    refine ⟨?_, ?_, ?_, ?_⟩ <;> simp [succCount, h0]
  have hFin := raceRun_inv empId now1 now2 day h1 h2 schedule _ hInit
  obtain ⟨hc, hle, hi1, hi2⟩ := hFin
  refine ⟨?_, ?_, hle, fun t1 t2 => ?_⟩
  · by_cases hf : (findAttendance store empId (dayStart now)).isSome = true
    · simp [checkInRoute, hf]
    · cases hins : insertUnique store (mkAttendance empId now) <;>
        simp [checkInRoute, hf, hins]
  · rw [hc]; exact hle
  · set final := raceRun empId now1 now2 schedule
      { store := store, ph1 := RacePhase.ready, ph2 := RacePhase.ready }
    cases hp1 : final.ph1 <;> cases hp2 : final.ph2 <;>
      simp_all [RacePhase.final, succCount]

/-- Claim C6, witness: with an empty store and the schedule where the first
attempt checks and inserts before the second attempt checks, the guard
equivalence holds and exactly one attempt succeeds. -/
theorem C6_witness :
    (checkInRoute [] 1 (8 * msPerHour) =
          Except.error CheckInError.alreadyCheckedIn ↔
        (findAttendance [] 1 (dayStart (8 * msPerHour))).isSome = true) ∧
      succCount
        (raceRun 1 (8 * msPerHour) (9 * msPerHour) [true, true, false, false]
          { store := [], ph1 := RacePhase.ready, ph2 := RacePhase.ready }) = 1 := by
  have h := C6_checkin_unique [] 1 (8 * msPerHour) (8 * msPerHour)
    (9 * msPerHour) 0 [true, true, false, false] (by decide) (by decide) rfl
  exact ⟨h.1, h.2.2.2 (by decide) (by decide)⟩

end EMP

